import Mathlib

/-!
Verification development for the drive-untrash repository: a shallow
embedding, in Lean 4, of its concurrent, deduplicated tree traversal and
rate-limited restore-dispatch engine, together with theorems about the
embedded definitions.

Source layout.  The repository contains three near-duplicate program
variants of the same tool:
* the first variant in main.go (drive v3 API, no dedup, pacer profile 5/10);
* the second variant in main.go (drive v2 API, dedup via a seen map guarded
  by a mutex, counters countFolders and countRestored, pacer profile 50/100);
* the synchronous two-phase variant in src/unnamed/part_001 (listFolder and
  listDrive accumulate all pages, restoreTrashed then walks the list).

Modelling conventions.
* Machine integers are Nat or Int; HTTP status codes are Int.
* Go errors are Option Err, with none standing for a nil error.
* Goroutines are sequentialised: every spawned task runs inline at its
  spawn point, and the commutativity of the atomic counter increments over
  arbitrary completion orders is proved separately (foldIncrements lemmas).
* Recursion over the remotely stored folder graph is bounded by explicit
  fuel; exhausted fuel is modelled as a failed listing.
* RunState carries, besides the program's own mutable state (seen map and
  the two counters), ghost event traces (listed, discovered, dispatched,
  restored, failedRestores, pagesDispatched, listFailures) recording the
  log lines and spawned operations, so that theorems can speak about what
  happened during a run.
-/

/-- Shallow embedding of a Go error value as matched by shouldRetry: either a
googleapi.Error carrying an HTTP status code and a list of error reasons
(only the reasons field of each sub-error is relevant), or any other error. -/
inductive Err where
  | gapi (code : Int) (reasons : List String)
  | other (msg : String)
deriving DecidableEq

/-- Embedding of shouldRetry (identical in all three variants: main.go lines
73-87 and 328-342, part_001 lines 60-74).  A googleapi.Error with a 5xx code
is retryable; otherwise, if it carries at least one sub-error whose first
reason is rateLimitExceeded or userRateLimitExceeded it is retryable; every
other error, and a nil error, yields (false, err). -/
def shouldRetry (err : Option Err) : Bool × Option Err :=
  match err with
  | some (Err.gapi code reasons) =>
    if 500 ≤ code ∧ code < 600 then (true, err)
    else
      match reasons with
      | [] => (false, err)
      | r :: _ =>
        if r = "rateLimitExceeded" ∨ r = "userRateLimitExceeded" then (true, err)
        else (false, err)
  | _ => (false, err)

/-- Modelled from the spec: the Call Executor's retry loop (rclone lib/pacer
Pacer.Call, an external library not under src/).  It invokes the paced
function up to the configured number of attempts; a (false, err) result stops
the loop immediately and surfaces err; exhausting the budget surfaces the
last error.  The first argument of fn is the zero-based attempt index; the
result's second component is the number of attempts performed. -/
def pacerLoop (fn : Nat → Bool × Option Err) : Nat → Nat → Option Err × Nat
  | used, 0 => (none, used)
  | used, 1 => ((fn used).2, used + 1)
  | used, Nat.succ (Nat.succ rem) =>
    if (fn used).1 then pacerLoop fn (used + 1) (Nat.succ rem)
    else ((fn used).2, used + 1)

/-- Modelled from the spec: one Call Executor invocation with an attempt
budget, starting from attempt 0. -/
def pacerCall (retries : Nat) (fn : Nat → Bool × Option Err) : Option Err × Nat :=
  pacerLoop fn 0 retries

/-- Modelled from the spec: the pluggable backoff calculator handed to the
pacer via SetCalculator (rclone pacer.NewGoogleDrive / pacer.NewDefault, an
external library not under src/): an increasing delay curve, doubling from a
minimum sleep and capped at a maximum sleep. -/
def expBackoff (minSleep maxSleep : Nat) (consecutiveRetries : Nat) : Nat :=
  min maxSleep (minSleep * 2 ^ consecutiveRetries)

/-- Configuration of the Call Executor as set in main(). -/
structure PacerConfig where
  retries : Nat
  maxConnections : Nat
  backoff : Nat → Nat

/-- The default profile: SetRetries(5), SetMaxConnections(10),
SetCalculator(pacer.NewGoogleDrive()) — main.go lines 211-215 (first
variant) and part_001 lines 219-224. -/
def defaultProfile : PacerConfig :=
  { retries := 5, maxConnections := 10, backoff := expBackoff 10 2000 }

/-- The aggressive profile: SetRetries(50), SetMaxConnections(100),
SetCalculator(pacer.NewDefault()) — main.go lines 481-485 (second variant). -/
def aggressiveProfile : PacerConfig :=
  { retries := 50, maxConnections := 100, backoff := expBackoff 10 2000 }

/-- Follows the spec's words (sections 4.1 and 7): an error is retryable
exactly when it is a remote API error whose HTTP status code lies in 500-599
or whose declared (first) reason string is rateLimitExceeded or
userRateLimitExceeded. -/
def retryableSpec (e : Option Err) : Prop :=
  ∃ code reasons, e = some (Err.gapi code reasons) ∧
    ((500 ≤ code ∧ code < 600) ∨
      reasons.head? = some "rateLimitExceeded" ∨
      reasons.head? = some "userRateLimitExceeded")

theorem shouldRetry_snd (e : Option Err) : (shouldRetry e).2 = e := by
  cases e with
  | none => rfl
  | some err =>
    cases err with
    | other m => rfl
    | gapi code reasons =>
      simp only [shouldRetry]
      split
      · rfl
      · cases reasons with
        | nil => rfl
        | cons r rs =>
          simp only
          split <;> rfl

theorem retryableSpec_gapi (code : Int) (reasons : List String) :
    retryableSpec (some (Err.gapi code reasons)) ↔
      ((500 ≤ code ∧ code < 600) ∨
        reasons.head? = some "rateLimitExceeded" ∨
        reasons.head? = some "userRateLimitExceeded") := by
  constructor
  · rintro ⟨c, rs, heq, h⟩
    injection heq with heq
    injection heq with h1 h2
    subst h1; subst h2
    exact h
  · intro h
    exact ⟨code, reasons, rfl, h⟩

theorem pacerLoop_terminal (fn : Nat → Bool × Option Err) (b used : Nat)
    (hb : 1 ≤ b) (hf : (fn used).1 = false) :
    pacerLoop fn used b = ((fn used).2, used + 1) := by
  match b with
  | 0 => omega
  | 1 => rfl
  | Nat.succ (Nat.succ rem) =>
    simp only [pacerLoop, hf]
    simp

theorem pacerLoop_exhaust (fn : Nat → Bool × Option Err) :
    ∀ b used, 1 ≤ b → (∀ i, i < b → (fn (used + i)).1 = true) →
      pacerLoop fn used b = ((fn (used + b - 1)).2, used + b) := by
  intro b
  induction b with
  | zero => omega
  | succ n ih =>
    intro used _ hall
    match n with
    | 0 => simp [pacerLoop]
    | Nat.succ m =>
      have h0 : (fn used).1 = true := by
        have := hall 0 (by omega)
        simpa using this
      simp only [pacerLoop, h0, if_true]
      have hall' : ∀ i, i < Nat.succ m → (fn (used + 1 + i)).1 = true := by
        intro i hi
        have := hall (i + 1) (by omega)
        have heq : used + (i + 1) = used + 1 + i := by omega
        rwa [heq] at this
      have := ih (used + 1) (by omega) hall'
      rw [this]
      have h1 : used + 1 + Nat.succ m - 1 = used + Nat.succ (Nat.succ m) - 1 := by omega
      have h2 : used + 1 + Nat.succ m = used + Nat.succ (Nat.succ m) := by omega
      rw [h1, h2]

theorem pacerLoop_used_le (fn : Nat → Bool × Option Err) :
    ∀ b used, (pacerLoop fn used b).2 ≤ used + b := by
  intro b
  induction b with
  | zero => intro used; simp [pacerLoop]
  | succ n ih =>
    intro used
    match n with
    | 0 => simp [pacerLoop]
    | Nat.succ m =>
      simp only [pacerLoop]
      split
      · have := ih (used + 1)
        omega
      · omega

theorem pacerCall_terminal (fn : Nat → Bool × Option Err) (b : Nat)
    (hb : 1 ≤ b) (hf : (fn 0).1 = false) :
    pacerCall b fn = ((fn 0).2, 1) := by
  unfold pacerCall
  rw [pacerLoop_terminal fn b 0 hb hf]

theorem pacerCall_exhaust (fn : Nat → Bool × Option Err) (b : Nat)
    (hb : 1 ≤ b) (hall : ∀ i, i < b → (fn i).1 = true) :
    pacerCall b fn = ((fn (b - 1)).2, b) := by
  unfold pacerCall
  have := pacerLoop_exhaust fn b 0 hb (by intro i hi; simpa using hall i hi)
  simpa using this

theorem pacerCall_attempts_le (fn : Nat → Bool × Option Err) (b : Nat) :
    (pacerCall b fn).2 ≤ b := by
  have := pacerLoop_used_le fn b 0
  simpa [pacerCall] using this

theorem expBackoff_monotone (minSleep maxSleep : Nat) :
    Monotone (fun n => expBackoff minSleep maxSleep n) := by
  intro a b hab
  simp only [expBackoff]
  exact min_le_min (le_refl _)
    (Nat.mul_le_mul_left _ (Nat.pow_le_pow_right (by omega) hab))

/-- Concrete retryable error: HTTP 503 with no sub-errors. -/
def err503 : Option Err := some (Err.gapi 503 [])

/-- Concrete terminal error: HTTP 404 with no sub-errors. -/
def err404 : Option Err := some (Err.gapi 404 [])

/-- C2: the error classifier shouldRetry marks an error as retryable if and
only if it is a remote API error whose HTTP status code is in 500-599 or
whose declared (first) reason string is rateLimitExceeded or
userRateLimitExceeded; every other error is terminal: fed to the Call
Executor it is surfaced unchanged to the caller after exactly one attempt,
i.e. with zero retries. -/
theorem shouldRetry_classification :
    (∀ e, (shouldRetry e).1 = true ↔ retryableSpec e) ∧
    (∀ e b, 1 ≤ b → (shouldRetry e).1 = false →
      pacerCall b (fun _ => shouldRetry e) = (e, 1)) := by
  constructor
  · intro e
    cases e with
    | none =>
      simp only [shouldRetry]
      constructor
      · intro h; simp at h
      · rintro ⟨c, rs, heq, _⟩; cases heq
    | some err =>
      cases err with
      | other m =>
        simp only [shouldRetry]
        constructor
        · intro h; simp at h
        · rintro ⟨c, rs, heq, _⟩; cases heq
      | gapi code reasons =>
        rw [retryableSpec_gapi]
        simp only [shouldRetry]
        split
        · rename_i h5
          simp only [true_iff]
          exact Or.inl h5
        · rename_i h5
          cases reasons with
          | nil =>
            simp only [List.head?]
            constructor
            · intro h; simp at h
            · rintro (h | h | h)
              · exact absurd h h5
              · cases h
              · cases h
          | cons r rs =>
            simp only [List.head?]
            split
            · rename_i hr
              simp only [true_iff]
              rcases hr with hr | hr
              · exact Or.inr (Or.inl (by rw [hr]))
              · exact Or.inr (Or.inr (by rw [hr]))
            · rename_i hr
              constructor
              · intro h; simp at h
              · rintro (h | h | h)
                · exact absurd h h5
                · exact absurd (Or.inl (by injection h)) hr
                · exact absurd (Or.inr (by injection h)) hr
  · intro e b hb hf
    rw [pacerCall_terminal _ b hb hf, shouldRetry_snd]

/-- Witness for C2: the terminal error 404 is surfaced unchanged after one
single attempt under the default budget of 5. -/
theorem shouldRetry_classification_witness :
    pacerCall 5 (fun _ => shouldRetry err404) = (err404, 1) :=
  shouldRetry_classification.2 err404 5 (by decide) (by decide)

/-- C9: the call executor is configured with a maximum attempt count of 5 and
a concurrency cap of 10 in the default profile, and 50 attempts with a cap of
100 in the aggressive profile; the backoff calculator supplies a
nondecreasing delay curve; a run of retryable results exhausting the attempt
budget surfaces the last error as terminal, and the number of attempts never
exceeds the budget. -/
theorem pacer_profiles_and_budget :
    defaultProfile.retries = 5 ∧ defaultProfile.maxConnections = 10 ∧
    aggressiveProfile.retries = 50 ∧ aggressiveProfile.maxConnections = 100 ∧
    (∀ minSleep maxSleep, Monotone (fun n => expBackoff minSleep maxSleep n)) ∧
    (∀ fn b, 1 ≤ b → (∀ i, i < b → (fn i).1 = true) →
      pacerCall b fn = ((fn (b - 1)).2, b)) ∧
    (∀ fn b, (pacerCall b fn).2 ≤ b) :=
  ⟨rfl, rfl, rfl, rfl, expBackoff_monotone, pacerCall_exhaust, pacerCall_attempts_le⟩

/-- Witness for C9: the backoff is nondecreasing at concrete points, and a
sequence of five 503 results exhausts the default budget of 5 and surfaces
the last 503 as the terminal error after exactly 5 attempts. -/
theorem pacer_profiles_and_budget_witness :
    expBackoff 10 2000 1 ≤ expBackoff 10 2000 3 ∧
    pacerCall 5 (fun _ => shouldRetry err503) = (err503, 5) := by
  refine ⟨pacer_profiles_and_budget.2.2.2.2.1 10 2000 (by decide : (1 : Nat) ≤ 3), ?_⟩
  have h := pacer_profiles_and_budget.2.2.2.2.2.1 (fun _ => shouldRetry err503) 5
    (by decide) (fun i _ => show (shouldRetry err503).1 = true by decide)
  simpa [shouldRetry_snd] using h

/-- C10: shouldRetry always returns its input error unchanged as the error
component, and on a nil error it returns (false, nil), so a successful remote
call is never retried. -/
theorem shouldRetry_returns_error_unchanged :
    (∀ e, (shouldRetry e).2 = e) ∧ shouldRetry none = (false, none) :=
  ⟨shouldRetry_snd, rfl⟩

/-- A discovered remote item as materialised by the listing calls: the fields
requested are id, name (title in the v2 variant), mimeType and
explicitlyTrashed. -/
structure DriveFile where
  id : String
  name : String
  mimeType : String
  explicitlyTrashed : Bool
deriving DecidableEq

/-- The mime type marking an item as a folder. -/
def folderMimeType : String := "application/vnd.google-apps.folder"

/-- One page of a listing: the returned files plus the next-page token, the
empty string signalling the last page. -/
structure Page where
  files : List DriveFile
  nextPageToken : String
deriving DecidableEq

/-- The boolean filter common to every listing query. -/
def folderOrTrashedQ : String :=
  "mimeType = 'application/vnd.google-apps.folder' or trashed = true"

/-- The observable parameters of one remote listing call: the query string,
the requested page size (PageSize in the v3 variants, MaxResults in the v2
variant) and the continuation token, set only when non-empty. -/
structure ListCall where
  q : String
  pageSize : Nat
  pageToken : Option String
deriving DecidableEq

/-- Embedding of the listing call built by getFolderPage in both main.go
variants (lines 89-112 and 344-367): parent-restricted when folderId is
non-empty, unrestricted otherwise, always with page size 1000. -/
def getFolderPageCall (folderId pageToken : String) : ListCall :=
  { q :=
      if folderId ≠ "" then
        "'" ++ folderId ++ "' in parents and (" ++ folderOrTrashedQ ++ ")"
      else folderOrTrashedQ
  , pageSize := 1000
  , pageToken := if pageToken ≠ "" then some pageToken else none }

/-- Embedding of the listing call built by getFolderPage in part_001 (lines
76-94): always parent-restricted (its callers only pass named scopes). -/
def getFolderPageCallSync (folderId pageToken : String) : ListCall :=
  { q := "'" ++ folderId ++ "' in parents and (" ++ folderOrTrashedQ ++ ")"
  , pageSize := 1000
  , pageToken := if pageToken ≠ "" then some pageToken else none }

/-- Embedding of the listing call built by getPage in part_001 (lines
114-133): the whole-store listing, never parent-restricted. -/
def getPageCall (pageToken : String) : ListCall :=
  { q := folderOrTrashedQ
  , pageSize := 1000
  , pageToken := if pageToken ≠ "" then some pageToken else none }

/-- Follows the spec's words (section 4.2): the query is restricted to direct
children of the scope, or carries no parent restriction for the store-root
sentinel, and in both cases keeps only items that are a folder or trashed. -/
def specQuery (scope : Option String) : String :=
  match scope with
  | some fid => "'" ++ fid ++ "' in parents and (" ++ folderOrTrashedQ ++ ")"
  | none => folderOrTrashedQ

/-- C5: every listing request restricts its query to direct children of the
given scope (or, for the store-root sentinel, applies no parent restriction)
and to items that are a folder or trashed, and always requests page size
1000, the maximum the remote API allows. -/
theorem listing_query_spec :
    (∀ folderId pageToken,
      (getFolderPageCall folderId pageToken).q =
        specQuery (if folderId = "" then none else some folderId) ∧
      (getFolderPageCall folderId pageToken).pageSize = 1000) ∧
    (∀ pageToken,
      (getPageCall pageToken).q = specQuery none ∧
      (getPageCall pageToken).pageSize = 1000) ∧
    (∀ folderId pageToken, folderId ≠ "" →
      (getFolderPageCallSync folderId pageToken).q = specQuery (some folderId) ∧
      (getFolderPageCallSync folderId pageToken).pageSize = 1000) := by
  refine ⟨?_, ?_, ?_⟩
  · intro folderId pageToken
    by_cases h : folderId = ""
    · simp [getFolderPageCall, specQuery, h]
    · simp [getFolderPageCall, specQuery, h]
  · intro pageToken
    simp [getPageCall, specQuery]
  · intro folderId pageToken _
    simp [getFolderPageCallSync, specQuery]

/-- Witness for C5: the parent-restricted query of the synchronous variant at
a concrete named scope. -/
theorem listing_query_spec_witness :
    (getFolderPageCallSync "A" "").q = specQuery (some "A") ∧
    (getFolderPageCallSync "A" "").pageSize = 1000 :=
  listing_query_spec.2.2 "A" "" (by decide)

/-- The remote world a run interacts with: pages gives the outcome of one
getFolderPage call (folder id and continuation token to a page, none for a
listing error, after the pacer's own retrying); untrashAttempts gives the
error outcome of the i-th attempt of the untrash mutate call for an item id
(none for success); retries is the pacer's configured attempt budget. -/
structure Env where
  pages : String → String → Option Page
  untrashAttempts : String → Nat → Option Err
  retries : Nat

/-- Whether the untrash call for an item ultimately succeeds: the Call
Executor runs the remote mutate call through shouldRetry under the configured
attempt budget, and success is a nil final error (p.Call returning nil in
restoreTrashed). -/
def restoreSucceeds (env : Env) (id : String) : Bool :=
  (pacerCall env.retries (fun i => shouldRetry (env.untrashAttempts id i))).1.isNone

/-- The mutable state of one run of the second main.go variant, plus ghost
event traces.  seen, countFolders and countRestored mirror the program
variables of the same names; listed records each folder id whose listing body
ran (in claim order); discovered records every child examined by
restoreTrashed; dispatched records each item id for which an untrash call was
spawned; restored records the ids whose untrash succeeded; failedRestores
records the (id, name, folder) triples of the failure log lines;
pagesDispatched records each (folder id, files) page handed to a spawned
restoreTrashed; listFailures records the scope identities of the listing
failure log lines. -/
structure RunState where
  seen : String → Nat
  countFolders : Nat
  countRestored : Nat
  listed : List String
  discovered : List DriveFile
  dispatched : List String
  restored : List String
  failedRestores : List (String × String × String)
  pagesDispatched : List (String × List DriveFile)
  listFailures : List String

/-- The state at program start: the seen map is empty and both counters are
zero. -/
def initState : RunState :=
  { seen := fun _ => 0
  , countFolders := 0
  , countRestored := 0
  , listed := []
  , discovered := []
  , dispatched := []
  , restored := []
  , failedRestores := []
  , pagesDispatched := []
  , listFailures := [] }

/-- The unconditional part of processFolder's entry (main.go lines 373-376):
the folder's seen count is incremented under the mutex. -/
def bumpSeen (folderId : String) (st : RunState) : RunState :=
  { st with seen := fun k => if k = folderId then st.seen k + 1 else st.seen k }

/-- The winning-claim path of processFolder (main.go lines 373-383): the seen
count is bumped, countFolders is incremented, and the listing body is about
to run (recorded in the listed trace). -/
def claimFolder (folderId : String) (st : RunState) : RunState :=
  { bumpSeen folderId st with
    countFolders := st.countFolders + 1
    listed := st.listed ++ [folderId] }

/-- The parent name used in restore log lines (main.go lines 292-294): the
empty id is displayed as root. -/
def displayParent (folderId : String) : String :=
  if folderId = "" then "root" else folderId

/-- The per-item body of restoreTrashed's loop (main.go lines 296-316): an
explicitly trashed child gets an untrash call spawned; on success
countRestored is incremented, on terminal failure the id, name and parent are
logged and nothing else happens. -/
def restoreStep (env : Env) (parent : String) (child : DriveFile) (st : RunState) : RunState :=
  if child.explicitlyTrashed then
    let st1 := { st with dispatched := st.dispatched ++ [child.id] }
    if restoreSucceeds env child.id then
      { st1 with
        countRestored := st1.countRestored + 1
        restored := st1.restored ++ [child.id] }
    else
      { st1 with failedRestores := st1.failedRestores ++ [(child.id, child.name, parent)] }
  else st

/-- One child examination in restoreTrashed: the child is recorded as
discovered, then the restore dispatch of restoreStep runs. -/
def examineChild (env : Env) (parent : String) (child : DriveFile) (st : RunState) : RunState :=
  restoreStep env parent child { st with discovered := st.discovered ++ [child] }

/-- The whole body run for one child of restoreTrashed's loop (main.go lines
295-325), sequentialised: the examination and restore dispatch happen first;
then, when recursing and the child is a folder, processFolder runs on the
child (recur is the recursive processFolder reference at the current fuel); a
recursion error is logged with the child's title and the loop continues. -/
def childStep (env : Env) (recur : String → RunState → RunState × Bool)
    (parent : String) (recurse : Bool) (child : DriveFile) (st : RunState) : RunState :=
  let st1 := examineChild env (displayParent parent) child st
  if recurse ∧ child.mimeType = folderMimeType then
    match recur child.id st1 with
    | (st', true) => st'
    | (st', false) => { st' with listFailures := st'.listFailures ++ [child.name] }
  else st1

/-- Embedding of restoreTrashed of the second main.go variant (lines
290-326): the loop over the page's children, each child handled by
childStep. -/
def restoreTrashed (env : Env) (recur : String → RunState → RunState × Bool)
    (parent : String) (childs : List DriveFile) (recurse : Bool) (st : RunState) : RunState :=
  match childs with
  | [] => st
  | child :: rest =>
    restoreTrashed env recur parent rest recurse (childStep env recur parent recurse child st)

/-- The spawn of one page's restoreTrashed task (main.go lines 395-399),
recorded in the pagesDispatched trace. -/
def dispatchPage (fid : String) (files : List DriveFile) (st : RunState) : RunState :=
  { st with pagesDispatched := st.pagesDispatched ++ [(fid, files)] }

/-- Embedding of processFolder's page loop (main.go lines 387-404): the loop
carries only the continuation token, starting empty; each fetched page is
handed to a spawned restoreTrashed at once (recorded in pagesDispatched); a
fetch failure returns an error; an empty next token ends the loop.  The fuel
bounds the length of the token chain; running out is modelled as a failed
listing. -/
def pageLoop (env : Env) (recur : String → RunState → RunState × Bool)
    (fid : String) : Nat → String → RunState → RunState × Bool
  | 0, _, st => (st, false)
  | Nat.succ n, tok, st =>
    match env.pages fid tok with
    | none => (st, false)
    | some pg =>
      let st1 := restoreTrashed env recur fid pg.files true (dispatchPage fid pg.files st)
      if pg.nextPageToken = "" then (st1, true)
      else pageLoop env recur fid n pg.nextPageToken st1

/-- Embedding of processFolder of the second main.go variant (lines 372-406):
under the mutex the seen count is read and incremented; a previously seen
folder id is skipped entirely; a fresh one increments countFolders and runs
the page loop.  The fuel bounds the recursion depth and the page chains;
running out is modelled as a failed listing. -/
def processFolder (env : Env) : Nat → String → RunState → RunState × Bool
  | 0, _, st => (st, false)
  | Nat.succ n, fid, st =>
    if 0 < st.seen fid then (bumpSeen fid st, true)
    else pageLoop env (processFolder env n) fid (Nat.succ n) "" (claimFolder fid st)

/-- Embedding of the positional-argument loop of main (main.go lines
508-514): each root is processed in turn; an error is logged with the root's
id and the loop continues. -/
def runRoots (env : Env) (fuel : Nat) : List String → RunState → RunState
  | [], st => st
  | r :: rest, st =>
    match processFolder env fuel r st with
    | (st', true) => runRoots env fuel rest st'
    | (st', false) => runRoots env fuel rest { st' with listFailures := st'.listFailures ++ [r] }

/-- How the process ends: a normal exit after wg.Wait and the final count
report, or a log.Fatalf exit carrying the fatal message. -/
inductive ExitOutcome where
  | success
  | fatalExit (msg : String)
deriving DecidableEq

/-- Embedding of main of the second main.go variant after startup (lines
508-526): with positional arguments every root failure is merely logged and
the process exits normally after the barrier; with no arguments the whole
store is traversed from the sentinel scope and a listing failure there is
fatal (log.Fatalf, before the barrier). -/
def mainRun (env : Env) (fuel : Nat) (roots : List String) : ExitOutcome × RunState :=
  match roots with
  | [] =>
    match processFolder env fuel "" initState with
    | (st, true) => (ExitOutcome.success, st)
    | (st, false) => (ExitOutcome.fatalExit "Unable to list drive", st)
  | r :: rest => (ExitOutcome.success, runRoots env fuel (r :: rest) initState)

/-- Embedding of main including startup (main.go lines 491-494): a missing
client secret file is fatal before any traversal begins. -/
def fullMain (clientSecretOk : Bool) (env : Env) (fuel : Nat) (roots : List String) :
    ExitOutcome × RunState :=
  if clientSecretOk then mainRun env fuel roots
  else (ExitOutcome.fatalExit "Unable to read client secret file", initState)

/-- The run invariant tying the counters to the ghost traces: listed folder
ids are distinct and have positive seen counts, countFolders counts the
listings, the dispatched untrash calls are exactly the explicitly trashed
discovered items, the restored ids are exactly the dispatched ids whose
untrash ultimately succeeded, countRestored counts them, and every dispatched
page is exactly one page as fetched from the remote store. -/
structure RunInv (env : Env) (st : RunState) : Prop where
  listedNodup : st.listed.Nodup
  listedSeen : ∀ id, id ∈ st.listed → 0 < st.seen id
  foldersEq : st.countFolders = st.listed.length
  dispatchedEq :
    st.dispatched = (st.discovered.filter fun f => f.explicitlyTrashed).map fun f => f.id
  restoredEq : st.restored = st.dispatched.filter fun i => restoreSucceeds env i
  restoredCountEq : st.countRestored = st.restored.length
  pagesSingle : ∀ e ∈ st.pagesDispatched,
    ∃ tok pg, env.pages e.1 tok = some pg ∧ e.2 = pg.files

/-- Monotonicity of one state transition: the two counters never decrease and
the listing trace only grows at the end. -/
structure Mono (st st' : RunState) : Prop where
  foldersLe : st.countFolders ≤ st'.countFolders
  restoredLe : st.countRestored ≤ st'.countRestored
  listedPre : st.listed <+: st'.listed

theorem mono_refl (st : RunState) : Mono st st :=
  ⟨le_refl _, le_refl _, List.prefix_refl _⟩

theorem mono_trans {st1 st2 st3 : RunState} (h1 : Mono st1 st2) (h2 : Mono st2 st3) :
    Mono st1 st3 :=
  ⟨le_trans h1.foldersLe h2.foldersLe, le_trans h1.restoredLe h2.restoredLe,
    h1.listedPre.trans h2.listedPre⟩

theorem inv_bumpSeen (env : Env) (fid : String) (st : RunState) (h : RunInv env st) :
    RunInv env (bumpSeen fid st) := by
  refine ⟨h.listedNodup, ?_, h.foldersEq, h.dispatchedEq, h.restoredEq,
    h.restoredCountEq, h.pagesSingle⟩
  intro id hid
  have := h.listedSeen id hid
  simp only [bumpSeen]
  split <;> omega

theorem mono_bumpSeen (fid : String) (st : RunState) : Mono st (bumpSeen fid st) :=
  ⟨le_refl _, le_refl _, List.prefix_refl _⟩

theorem inv_claimFolder (env : Env) (fid : String) (st : RunState)
    (h0 : st.seen fid = 0) (h : RunInv env st) : RunInv env (claimFolder fid st) := by
  have hnot : fid ∉ st.listed := fun hm => by
    have := h.listedSeen fid hm; omega
  refine ⟨?_, ?_, ?_, h.dispatchedEq, h.restoredEq, h.restoredCountEq, h.pagesSingle⟩
  · simp [claimFolder, List.nodup_append, h.listedNodup, hnot]
  · intro id hid
    simp only [claimFolder, List.mem_append, List.mem_singleton] at hid
    simp only [claimFolder, bumpSeen]
    rcases hid with hid | hid
    · have := h.listedSeen id hid
      split <;> omega
    · subst hid
      simp
  · simp [claimFolder, h.foldersEq]

theorem mono_claimFolder (fid : String) (st : RunState) : Mono st (claimFolder fid st) :=
  ⟨by simp [claimFolder], le_refl _, by simp [claimFolder]⟩

theorem inv_dispatchPage (env : Env) (fid tok : String) (pg : Page) (st : RunState)
    (hp : env.pages fid tok = some pg) (h : RunInv env st) :
    RunInv env (dispatchPage fid pg.files st) := by
  refine ⟨h.listedNodup, h.listedSeen, h.foldersEq, h.dispatchedEq, h.restoredEq,
    h.restoredCountEq, ?_⟩
  intro e he
  simp only [dispatchPage, List.mem_append, List.mem_singleton] at he
  rcases he with he | he
  · exact h.pagesSingle e he
  · subst he
    exact ⟨tok, pg, hp, rfl⟩

theorem mono_dispatchPage (fid : String) (files : List DriveFile) (st : RunState) :
    Mono st (dispatchPage fid files st) :=
  ⟨le_refl _, le_refl _, List.prefix_refl _⟩

theorem inv_listFailures (env : Env) (x : List String) (st : RunState) (h : RunInv env st) :
    RunInv env { st with listFailures := x } :=
  ⟨h.listedNodup, h.listedSeen, h.foldersEq, h.dispatchedEq, h.restoredEq,
    h.restoredCountEq, h.pagesSingle⟩

theorem mono_listFailures (x : List String) (st : RunState) :
    Mono st { st with listFailures := x } :=
  ⟨le_refl _, le_refl _, List.prefix_refl _⟩

/-- Field-by-field description of one child examination: the child is
appended to discovered; an untrash call is dispatched exactly when the child
is explicitly trashed, incrementing countRestored on ultimate success and
logging id, name and parent on terminal failure; everything else is
untouched. -/
theorem examineChild_spec (env : Env) (parent : String) (child : DriveFile) (st : RunState) :
    (examineChild env parent child st).listed = st.listed ∧
    (examineChild env parent child st).seen = st.seen ∧
    (examineChild env parent child st).countFolders = st.countFolders ∧
    (examineChild env parent child st).pagesDispatched = st.pagesDispatched ∧
    (examineChild env parent child st).listFailures = st.listFailures ∧
    (examineChild env parent child st).discovered = st.discovered ++ [child] ∧
    (examineChild env parent child st).dispatched =
      st.dispatched ++ (if child.explicitlyTrashed then [child.id] else []) ∧
    (examineChild env parent child st).restored =
      st.restored ++
        (if child.explicitlyTrashed ∧ restoreSucceeds env child.id then [child.id] else []) ∧
    (examineChild env parent child st).countRestored =
      st.countRestored +
        (if child.explicitlyTrashed ∧ restoreSucceeds env child.id then 1 else 0) ∧
    (examineChild env parent child st).failedRestores =
      st.failedRestores ++
        (if child.explicitlyTrashed ∧ ¬restoreSucceeds env child.id then
          [(child.id, child.name, parent)] else []) := by
  by_cases ht : child.explicitlyTrashed
  · by_cases hs : restoreSucceeds env child.id
    · simp [examineChild, restoreStep, ht, hs]
    · simp [examineChild, restoreStep, ht, hs]
  · simp [examineChild, restoreStep, ht]

theorem inv_examineChild (env : Env) (parent : String) (child : DriveFile)
    (st : RunState) (h : RunInv env st) : RunInv env (examineChild env parent child st) := by
  obtain ⟨e1, e2, e3, e4, e5, e6, e7, e8, e9, e10⟩ := examineChild_spec env parent child st
  refine ⟨?_, ?_, ?_, ?_, ?_, ?_, ?_⟩
  · rw [e1]; exact h.listedNodup
  · rw [e1, e2]; exact h.listedSeen
  · rw [e3, e1, h.foldersEq]
  · rw [e7, e6, List.filter_append, List.map_append, h.dispatchedEq]
    by_cases ht : child.explicitlyTrashed <;> simp [ht]
  · rw [e8, e7, List.filter_append, h.restoredEq]
    by_cases ht : child.explicitlyTrashed
    · by_cases hs : restoreSucceeds env child.id <;> simp [ht, hs]
    · simp [ht]
  · rw [e9, e8, List.length_append, h.restoredCountEq]
    by_cases ht : child.explicitlyTrashed
    · by_cases hs : restoreSucceeds env child.id <;> simp [ht, hs]
    · simp [ht]
  · rw [e4]; exact h.pagesSingle

theorem mono_examineChild (env : Env) (parent : String) (child : DriveFile)
    (st : RunState) : Mono st (examineChild env parent child st) := by
  obtain ⟨e1, _, e3, _, _, _, _, _, e9, _⟩ := examineChild_spec env parent child st
  exact ⟨by omega, by omega, by rw [e1]⟩

theorem childStep_preserve (env : Env) (recur : String → RunState → RunState × Bool)
    (hrec : ∀ fid st, (RunInv env st → RunInv env (recur fid st).1) ∧ Mono st (recur fid st).1)
    (parent : String) (recurse : Bool) (child : DriveFile) (st : RunState) :
    (RunInv env st → RunInv env (childStep env recur parent recurse child st)) ∧
    Mono st (childStep env recur parent recurse child st) := by
  unfold childStep
  by_cases hc : (recurse ∧ child.mimeType = folderMimeType)
  · simp only [hc, if_true]
    rcases hr : recur child.id (examineChild env (displayParent parent) child st) with ⟨st', b⟩
    have hrecI := (hrec child.id (examineChild env (displayParent parent) child st)).1
    have hrecM := (hrec child.id (examineChild env (displayParent parent) child st)).2
    rw [hr] at hrecI hrecM
    cases b
    · simp only
      constructor
      · intro h
        exact inv_listFailures env _ _ (hrecI (inv_examineChild env _ child st h))
      · exact mono_trans (mono_examineChild env _ child st)
          (mono_trans hrecM (mono_listFailures _ _))
    · simp only
      constructor
      · intro h
        exact hrecI (inv_examineChild env _ child st h)
      · exact mono_trans (mono_examineChild env _ child st) hrecM
  · simp only [hc, if_false]
    exact ⟨inv_examineChild env _ child st, mono_examineChild env _ child st⟩

theorem restoreTrashed_preserve (env : Env) (recur : String → RunState → RunState × Bool)
    (hrec : ∀ fid st, (RunInv env st → RunInv env (recur fid st).1) ∧ Mono st (recur fid st).1) :
    ∀ childs parent recurse st,
      (RunInv env st → RunInv env (restoreTrashed env recur parent childs recurse st)) ∧
      Mono st (restoreTrashed env recur parent childs recurse st) := by
  intro childs
  induction childs with
  | nil =>
    intro parent recurse st
    simp only [restoreTrashed]
    exact ⟨id, mono_refl st⟩
  | cons child rest ih =>
    intro parent recurse st
    simp only [restoreTrashed]
    have hcs := childStep_preserve env recur hrec parent recurse child st
    have hrest := ih parent recurse (childStep env recur parent recurse child st)
    exact ⟨fun h => hrest.1 (hcs.1 h), mono_trans hcs.2 hrest.2⟩

theorem pageLoop_preserve (env : Env) (recur : String → RunState → RunState × Bool)
    (hrec : ∀ fid st, (RunInv env st → RunInv env (recur fid st).1) ∧ Mono st (recur fid st).1) :
    ∀ n fid tok st,
      (RunInv env st → RunInv env (pageLoop env recur fid n tok st).1) ∧
      Mono st (pageLoop env recur fid n tok st).1 := by
  intro n
  induction n with
  | zero =>
    intro fid tok st
    simp only [pageLoop]
    exact ⟨id, mono_refl st⟩
  | succ m ih =>
    intro fid tok st
    simp only [pageLoop]
    cases hp : env.pages fid tok with
    | none =>
      exact ⟨id, mono_refl st⟩
    | some pg =>
      simp only
      have hrt := restoreTrashed_preserve env recur hrec pg.files fid true
        (dispatchPage fid pg.files st)
      have hfirst :
          (RunInv env st →
            RunInv env (restoreTrashed env recur fid pg.files true (dispatchPage fid pg.files st))) ∧
          Mono st (restoreTrashed env recur fid pg.files true (dispatchPage fid pg.files st)) :=
        ⟨fun h => hrt.1 (inv_dispatchPage env fid tok pg st hp h),
          mono_trans (mono_dispatchPage fid pg.files st) hrt.2⟩
      split
      · exact hfirst
      · have hnext := ih fid pg.nextPageToken
          (restoreTrashed env recur fid pg.files true (dispatchPage fid pg.files st))
        exact ⟨fun h => hnext.1 (hfirst.1 h), mono_trans hfirst.2 hnext.2⟩

theorem processFolder_preserve (env : Env) :
    ∀ fuel fid st,
      (RunInv env st → RunInv env (processFolder env fuel fid st).1) ∧
      Mono st (processFolder env fuel fid st).1 := by
  intro fuel
  induction fuel with
  | zero =>
    intro fid st
    simp only [processFolder]
    exact ⟨id, mono_refl st⟩
  | succ n ih =>
    intro fid st
    simp only [processFolder]
    by_cases h : 0 < st.seen fid
    · rw [if_pos h]
      exact ⟨inv_bumpSeen env fid st, mono_bumpSeen fid st⟩
    · rw [if_neg h]
      have h0 : st.seen fid = 0 := by omega
      have hpl := pageLoop_preserve env (processFolder env n) ih (Nat.succ n) fid ""
        (claimFolder fid st)
      exact ⟨fun hinv => hpl.1 (inv_claimFolder env fid st h0 hinv),
        mono_trans (mono_claimFolder fid st) hpl.2⟩

theorem runRoots_preserve (env : Env) (fuel : Nat) :
    ∀ roots st,
      (RunInv env st → RunInv env (runRoots env fuel roots st)) ∧
      Mono st (runRoots env fuel roots st) := by
  intro roots
  induction roots with
  | nil =>
    intro st
    simp only [runRoots]
    exact ⟨id, mono_refl st⟩
  | cons r rest ih =>
    intro st
    simp only [runRoots]
    have hpf := processFolder_preserve env fuel r st
    rcases hp : processFolder env fuel r st with ⟨st', b⟩
    rw [hp] at hpf
    cases b
    · simp only
      have hnext := ih { st' with listFailures := st'.listFailures ++ [r] }
      exact ⟨fun h => hnext.1 (inv_listFailures env _ _ (hpf.1 h)),
        mono_trans (mono_trans hpf.2 (mono_listFailures _ _)) hnext.2⟩
    · simp only
      have hnext := ih st'
      exact ⟨fun h => hnext.1 (hpf.1 h), mono_trans hpf.2 hnext.2⟩

theorem inv_initState (env : Env) : RunInv env initState := by
  refine ⟨?_, ?_, ?_, ?_, ?_, ?_, ?_⟩ <;> simp [initState]

theorem mainRun_inv (env : Env) (fuel : Nat) (roots : List String) :
    RunInv env (mainRun env fuel roots).2 := by
  cases roots with
  | nil =>
    simp only [mainRun]
    have hpf := processFolder_preserve env fuel "" initState
    rcases hp : processFolder env fuel "" initState with ⟨st, b⟩
    rw [hp] at hpf
    cases b <;> simp only <;> exact hpf.1 (inv_initState env)
  | cons r rest =>
    simp only [mainRun]
    exact (runRoots_preserve env fuel (r :: rest) initState).1 (inv_initState env)

/-- Concrete shared subfolder B of the scenario in the spec (section 8): a
folder, not trashed. -/
def fileB : DriveFile :=
  { id := "B", name := "B", mimeType := folderMimeType, explicitlyTrashed := false }

/-- Concrete trashed file F1 of the scenario in the spec (section 8). -/
def fileF1 : DriveFile :=
  { id := "F1", name := "F1", mimeType := "text/plain", explicitlyTrashed := true }

/-- Concrete environment for the shared-folder scenario: folder A contains
the folder B and the trashed file F1, B is empty, every untrash call succeeds
on its first attempt under the default budget. -/
def envAB : Env :=
  { pages := fun fid tok =>
      if fid = "A" ∧ tok = "" then some { files := [fileB, fileF1], nextPageToken := "" }
      else if fid = "B" ∧ tok = "" then some { files := [], nextPageToken := "" }
      else none
  , untrashAttempts := fun _ _ => none
  , retries := 5 }

theorem childStep_mono (env : Env) (recur : String → RunState → RunState × Bool)
    (hrec : ∀ fid st, Mono st (recur fid st).1)
    (parent : String) (recurse : Bool) (child : DriveFile) (st : RunState) :
    Mono st (childStep env recur parent recurse child st) := by
  unfold childStep
  by_cases hc : (recurse ∧ child.mimeType = folderMimeType)
  · simp only [hc, if_true]
    rcases hr : recur child.id (examineChild env (displayParent parent) child st) with ⟨st', b⟩
    have hrecM := hrec child.id (examineChild env (displayParent parent) child st)
    rw [hr] at hrecM
    cases b
    · simp only
      exact mono_trans (mono_examineChild env _ child st)
        (mono_trans hrecM (mono_listFailures _ _))
    · simp only
      exact mono_trans (mono_examineChild env _ child st) hrecM
  · simp only [hc, if_false]
    exact mono_examineChild env _ child st

theorem restoreTrashed_mono (env : Env) (recur : String → RunState → RunState × Bool)
    (hrec : ∀ fid st, Mono st (recur fid st).1) :
    ∀ childs parent recurse st, Mono st (restoreTrashed env recur parent childs recurse st) := by
  intro childs
  induction childs with
  | nil =>
    intro parent recurse st
    simp only [restoreTrashed]
    exact mono_refl st
  | cons child rest ih =>
    intro parent recurse st
    simp only [restoreTrashed]
    exact mono_trans (childStep_mono env recur hrec parent recurse child st)
      (ih parent recurse _)

theorem pageLoop_mono (env : Env) (recur : String → RunState → RunState × Bool)
    (hrec : ∀ fid st, Mono st (recur fid st).1) :
    ∀ n fid tok st, Mono st (pageLoop env recur fid n tok st).1 := by
  intro n
  induction n with
  | zero =>
    intro fid tok st
    simp only [pageLoop]
    exact mono_refl st
  | succ m ih =>
    intro fid tok st
    simp only [pageLoop]
    cases hp : env.pages fid tok with
    | none => exact mono_refl st
    | some pg =>
      simp only
      have hfirst :
          Mono st (restoreTrashed env recur fid pg.files true (dispatchPage fid pg.files st)) :=
        mono_trans (mono_dispatchPage fid pg.files st)
          (restoreTrashed_mono env recur hrec pg.files fid true _)
      split
      · exact hfirst
      · exact mono_trans hfirst (ih fid pg.nextPageToken _)

/-- The listing-body entry of the first main.go variant's processFolder,
recorded in the listed trace: this variant has no seen map, no claim check
and no countFolders. -/
def enterFolderV1 (folderId : String) (st : RunState) : RunState :=
  { st with listed := st.listed ++ [folderId] }

/-- Embedding of processFolder of the first main.go variant (lines 113-136):
it runs the listing body unconditionally on every invocation — there is no
visited registry — looping over pages exactly like the second variant and
spawning restoreTrashed per page (lines 32-71), whose folder children recurse
back into this processFolder without any claim check. -/
def processFolderV1 (env : Env) : Nat → String → RunState → RunState × Bool
  | 0, _, st => (st, false)
  | Nat.succ n, fid, st =>
    pageLoop env (processFolderV1 env n) fid (Nat.succ n) "" (enterFolderV1 fid st)

/-- Embedding of the positional-argument loop of the first variant's main
(main.go lines 239-245): each root is processed in turn; an error is logged
with the root's id and the loop continues. -/
def runRootsV1 (env : Env) (fuel : Nat) : List String → RunState → RunState
  | [], st => st
  | r :: rest, st =>
    match processFolderV1 env fuel r st with
    | (st', true) => runRootsV1 env fuel rest st'
    | (st', false) =>
      runRootsV1 env fuel rest { st' with listFailures := st'.listFailures ++ [r] }

theorem mono_enterFolderV1 (fid : String) (st : RunState) : Mono st (enterFolderV1 fid st) :=
  ⟨le_refl _, le_refl _, by simp [enterFolderV1]⟩

theorem processFolderV1_mono (env : Env) :
    ∀ fuel fid st, Mono st (processFolderV1 env fuel fid st).1 := by
  intro fuel
  induction fuel with
  | zero =>
    intro fid st
    simp only [processFolderV1]
    exact mono_refl st
  | succ n ih =>
    intro fid st
    simp only [processFolderV1]
    exact mono_trans (mono_enterFolderV1 fid st)
      (pageLoop_mono env (processFolderV1 env n) ih (Nat.succ n) fid "" _)

/-- C1 counterexample: the first main.go variant's processFolder (lines
113-136, cited by the claim) has no visited registry; run on the scenario
where A and B are both roots and B is also a child of A, it executes B's
listing body twice — the listed trace repeats B and B's (empty) page is
fetched and dispatched twice — so the claim that the traversal body executes
exactly once per reachable folder id, with subsequent attempts skipping
entirely, is false for this cited variant at this input. -/
theorem nondedup_processFolder_lists_twice :
    (runRootsV1 envAB 10 ["A", "B"] initState).listed = ["A", "B", "B"] ∧
    (runRootsV1 envAB 10 ["A", "B"] initState).pagesDispatched =
      [("A", [fileB, fileF1]), ("B", []), ("B", [])] := by
  decide

/-- C1 (amended): in the deduplicating second main.go variant the listed
trace of a whole run never repeats an id, even when an id is reachable via
several parents or passed as several root arguments; there a claim attempt on
an already-seen id returns immediately having done nothing but bump the seen
count (no listing call, no recursion, no restore dispatch: the state is
unchanged apart from the seen map) and a claim attempt on a fresh id runs the
listing body; whereas the first main.go variant has no visited registry and
runs the listing body unconditionally on every invocation, hence once per
reference rather than once per folder id. -/
theorem processFolder_listing_exactly_once :
    (∀ env fuel roots, ((mainRun env fuel roots).2.listed).Nodup) ∧
    (∀ env fuel roots, ((runRoots env fuel roots initState).listed).Nodup) ∧
    (∀ env fuel fid st, 0 < st.seen fid →
      processFolder env (fuel + 1) fid st = (bumpSeen fid st, true)) ∧
    (∀ env fuel fid st, st.seen fid = 0 →
      fid ∈ (processFolder env (fuel + 1) fid st).1.listed) ∧
    (∀ env fuel fid st, fid ∈ (processFolderV1 env (fuel + 1) fid st).1.listed) := by
  refine ⟨?_, ?_, ?_, ?_, ?_⟩
  · intro env fuel roots
    exact (mainRun_inv env fuel roots).listedNodup
  · intro env fuel roots
    exact ((runRoots_preserve env fuel roots initState).1 (inv_initState env)).listedNodup
  · intro env fuel fid st h
    simp only [processFolder]
    rw [if_pos h]
  · intro env fuel fid st h0
    simp only [processFolder]
    rw [if_neg (by omega)]
    have hpl := (pageLoop_preserve env (processFolder env fuel)
      (processFolder_preserve env fuel) (Nat.succ fuel) fid "" (claimFolder fid st)).2
    apply hpl.listedPre.subset
    simp [claimFolder]
  · intro env fuel fid st
    simp only [processFolderV1]
    have hpl := pageLoop_mono env (processFolderV1 env fuel) (processFolderV1_mono env fuel)
      (Nat.succ fuel) fid "" (enterFolderV1 fid st)
    apply hpl.listedPre.subset
    simp [enterFolderV1]

/-- Witness for C1 (amended): in the concrete shared-folder environment, a
second claim of A in the deduplicating variant only bumps its seen count, and
a first claim of A runs the listing body. -/
theorem processFolder_listing_exactly_once_witness :
    processFolder envAB 3 "A" (bumpSeen "A" initState) =
      (bumpSeen "A" (bumpSeen "A" initState), true) ∧
    "A" ∈ (processFolder envAB 3 "A" initState).1.listed :=
  ⟨processFolder_listing_exactly_once.2.2.1 envAB 2 "A" (bumpSeen "A" initState) (by decide),
    processFolder_listing_exactly_once.2.2.2.1 envAB 2 "A" initState (by decide)⟩

/-- C8: countFolders is incremented exactly once per successful claim (it
always equals the length of the duplicate-free listed trace) and
countRestored exactly once per successful restore (it always equals the
length of the restored trace, which consists of the dispatched ids whose
untrash succeeded); both are monotone under every traversal step; and in the
scenario where A and B are both roots and B is also a child of A, the final
countFolders is 2 (A and B, not 3), B is listed exactly once and F1 is
restored exactly once. -/
theorem counters_exactly_once :
    (∀ env fuel roots,
      (mainRun env fuel roots).2.countFolders = (mainRun env fuel roots).2.listed.length ∧
      (mainRun env fuel roots).2.listed.Nodup ∧
      (mainRun env fuel roots).2.countRestored = (mainRun env fuel roots).2.restored.length ∧
      (mainRun env fuel roots).2.restored =
        (mainRun env fuel roots).2.dispatched.filter fun i => restoreSucceeds env i) ∧
    (∀ env fuel fid st, Mono st (processFolder env fuel fid st).1) ∧
    (runRoots envAB 10 ["A", "B"] initState).countFolders = 2 ∧
    (runRoots envAB 10 ["A", "B"] initState).listed = ["A", "B"] ∧
    (runRoots envAB 10 ["A", "B"] initState).listed.count "B" = 1 ∧
    (runRoots envAB 10 ["A", "B"] initState).restored = ["F1"] ∧
    (runRoots envAB 10 ["A", "B"] initState).dispatched.count "F1" = 1 := by
  refine ⟨?_, ?_, by decide, by decide, by decide, by decide, by decide⟩
  · intro env fuel roots
    have h := mainRun_inv env fuel roots
    exact ⟨h.foldersEq, h.listedNodup, h.restoredCountEq, h.restoredEq⟩
  · intro env fuel fid st
    exact (processFolder_preserve env fuel fid st).2

/-- The fold of the atomic countRestored increments over an arbitrary
completion order of the spawned restore tasks: each task whose untrash
succeeded adds exactly one. -/
def foldIncrements (l : List Bool) : Nat :=
  l.foldl (fun c b => if b then c + 1 else c) 0

theorem foldl_increments (l : List Bool) :
    ∀ n, l.foldl (fun c b => if b then c + 1 else c) n = n + l.count true := by
  induction l with
  | nil => intro n; simp
  | cons b rest ih =>
    intro n
    cases b <;> simp [List.count_cons, ih] <;> omega

theorem count_true_map {α : Type} (l : List α) (f : α → Bool) :
    (l.map f).count true = (l.filter f).length := by
  induction l with
  | nil => simp
  | cons a rest ih =>
    cases hf : f a <;> simp [List.count_cons, List.filter_cons, hf, ih]

/-- C4: after the barrier, countRestored equals exactly the number of
discovered explicitly-trashed items whose untrash call ultimately succeeded
(first attempt or after retries, via the Call Executor); and because the
counter is a commutative fold of atomic increments, any completion order of
the spawned restore tasks (any permutation of their success outcomes) folds
to that same value. -/
theorem countRestored_matches_successes :
    (∀ env fuel roots,
      (mainRun env fuel roots).2.countRestored =
        ((((mainRun env fuel roots).2.discovered.filter fun f => f.explicitlyTrashed).map
            fun f => f.id).filter fun i => restoreSucceeds env i).length) ∧
    (∀ env fuel roots (order : List Bool),
      order.Perm ((mainRun env fuel roots).2.dispatched.map fun i => restoreSucceeds env i) →
      foldIncrements order = (mainRun env fuel roots).2.countRestored) := by
  constructor
  · intro env fuel roots
    have h := mainRun_inv env fuel roots
    rw [h.restoredCountEq, h.restoredEq, h.dispatchedEq]
  · intro env fuel roots order hperm
    have h := mainRun_inv env fuel roots
    have hfold : foldIncrements order = order.count true := by
      simpa [foldIncrements] using foldl_increments order 0
    rw [hfold, hperm.count_eq, count_true_map, h.restoredCountEq, h.restoredEq]

/-- Witness for C4: the identity completion order in the concrete
shared-folder environment. -/
theorem countRestored_matches_successes_witness :
    foldIncrements ((mainRun envAB 10 ["A", "B"]).2.dispatched.map
        fun i => restoreSucceeds envAB i) =
      (mainRun envAB 10 ["A", "B"]).2.countRestored :=
  countRestored_matches_successes.2 envAB 10 ["A", "B"] _ (List.Perm.refl _)

/-- Full characterization of the restore dispatcher of the second main.go
variant over one page's own items (recurse = false, so no recursion
interleaves): an untrash call is dispatched exactly for the explicitly
trashed items, successes extend restored and countRestored, terminal failures
are logged as (id, name, parent) triples, and the claim state, counters of
folders and dispatched pages are untouched. -/
theorem restoreTrashed_false_char (env : Env) (recur : String → RunState → RunState × Bool)
    (parent : String) :
    ∀ childs st,
      (restoreTrashed env recur parent childs false st).dispatched =
        st.dispatched ++ (childs.filter fun c => c.explicitlyTrashed).map (fun c => c.id) ∧
      (restoreTrashed env recur parent childs false st).restored =
        st.restored ++ ((childs.filter fun c => c.explicitlyTrashed).filter
          fun c => restoreSucceeds env c.id).map (fun c => c.id) ∧
      (restoreTrashed env recur parent childs false st).countRestored =
        st.countRestored + ((childs.filter fun c => c.explicitlyTrashed).filter
          fun c => restoreSucceeds env c.id).length ∧
      (restoreTrashed env recur parent childs false st).failedRestores =
        st.failedRestores ++ ((childs.filter fun c => c.explicitlyTrashed).filter
          fun c => !restoreSucceeds env c.id).map (fun c => (c.id, c.name, displayParent parent)) ∧
      (restoreTrashed env recur parent childs false st).listed = st.listed ∧
      (restoreTrashed env recur parent childs false st).seen = st.seen ∧
      (restoreTrashed env recur parent childs false st).countFolders = st.countFolders ∧
      (restoreTrashed env recur parent childs false st).pagesDispatched = st.pagesDispatched := by
  intro childs
  induction childs with
  | nil =>
    intro st
    simp [restoreTrashed]
  | cons child rest ih =>
    intro st
    simp only [restoreTrashed, childStep, Bool.false_eq_true, false_and, if_false]
    obtain ⟨e1, e2, e3, e4, e5, e6, e7, e8, e9, e10⟩ :=
      examineChild_spec env (displayParent parent) child st
    obtain ⟨i1, i2, i3, i4, i5, i6, i7, i8⟩ :=
      ih (examineChild env (displayParent parent) child st)
    refine ⟨?_, ?_, ?_, ?_, ?_, ?_, ?_, ?_⟩
    · rw [i1, e7]
      by_cases ht : child.explicitlyTrashed <;>
        simp [List.filter_cons, ht, List.append_assoc]
    · rw [i2, e8]
      by_cases ht : child.explicitlyTrashed
      · by_cases hs : restoreSucceeds env child.id <;>
          simp [List.filter_cons, ht, hs, List.append_assoc]
      · simp [List.filter_cons, ht]
    · rw [i3, e9]
      by_cases ht : child.explicitlyTrashed
      · by_cases hs : restoreSucceeds env child.id <;>
          simp [List.filter_cons, ht, hs] <;> omega
      · simp [List.filter_cons, ht]
    · rw [i4, e10]
      by_cases ht : child.explicitlyTrashed
      · by_cases hs : restoreSucceeds env child.id <;>
          simp [List.filter_cons, ht, hs, List.append_assoc]
      · simp [List.filter_cons, ht]
    · rw [i5, e1]
    · rw [i6, e2]
    · rw [i7, e3]
    · rw [i8, e4]

/-- The per-run state of the synchronous variant in part_001: it has no
counters at all; dispatched traces the spawned untrash calls, failLog records
the failure log lines, which carry the item's id and name only (part_001 line
45 logs child.Id and child.Name but no parent), and listFailLog records the
names of children whose listing failed. -/
structure SyncState where
  dispatched : List String
  failLog : List (String × String)
  listFailLog : List String
deriving DecidableEq

/-- The empty synchronous state. -/
def initSync : SyncState := { dispatched := [], failLog := [], listFailLog := [] }

/-- The restore dispatch of part_001 restoreTrashed (lines 33-47) for one
child: an explicitly trashed child gets the untrash update call; a terminal
failure is logged with the child's id and name; success changes nothing
else. -/
def restoreStepSync (env : Env) (child : DriveFile) (st : SyncState) : SyncState :=
  if child.explicitlyTrashed then
    let st1 := { st with dispatched := st.dispatched ++ [child.id] }
    if restoreSucceeds env child.id then st1
    else { st1 with failLog := st1.failLog ++ [(child.id, child.name)] }
  else st

/-- The loop of part_001 restoreTrashed over a child list, with the folder
recursion abstracted into recurChild. -/
def restoreSyncChildren (env : Env) (recurChild : DriveFile → SyncState → SyncState)
    (recurse : Bool) : List DriveFile → SyncState → SyncState
  | [], st => st
  | child :: rest, st =>
    let st1 := restoreStepSync env child st
    let st2 := if recurse ∧ child.mimeType = folderMimeType then recurChild child st1 else st1
    restoreSyncChildren env recurChild recurse rest st2

/-- Per-page listing loop of part_001 listFolder and listDrive (lines 103-110
and 143-152): pages are fetched with the last continuation token and appended
into one single accumulated list until the token is empty.  The fuel bounds
the token chain; running out is modelled as a listing error. -/
def listFolderLoop (env : Env) (fid : String) : Nat → List DriveFile → String →
    Option (List DriveFile)
  | 0, acc, tok => if tok = "" then some acc else none
  | Nat.succ n, acc, tok =>
    if tok = "" then some acc
    else
      match env.pages fid tok with
      | none => none
      | some pg => listFolderLoop env fid n (acc ++ pg.files) pg.nextPageToken

/-- Embedding of part_001 listFolder (lines 95-112): fetch the first page,
then accumulate every further page into one combined list. -/
def listFolder (env : Env) (fuel : Nat) (fid : String) : Option (List DriveFile) :=
  match env.pages fid "" with
  | none => none
  | some pg => listFolderLoop env fid fuel pg.files pg.nextPageToken

/-- Embedding of part_001 listDrive (lines 134-152): the same accumulation
over the unrestricted whole-store listing, modelled as the sentinel scope. -/
def listDrive (env : Env) (fuel : Nat) : Option (List DriveFile) :=
  match env.pages "" "" with
  | none => none
  | some pg => listFolderLoop env "" fuel pg.files pg.nextPageToken

/-- Embedding of part_001 restoreTrashed (lines 28-58): for each child the
restore dispatch runs first; a folder child is then listed through listFolder
and recursed into synchronously; a listing failure is logged with the child's
name and the loop continues.  The fuel bounds the recursion depth. -/
def restoreTrashedSync (env : Env) : Nat → String → List DriveFile → Bool → SyncState →
    SyncState
  | 0, _, childs, recurse, st =>
    restoreSyncChildren env
      (fun child st => { st with listFailLog := st.listFailLog ++ [child.name] })
      recurse childs st
  | Nat.succ n, _, childs, recurse, st =>
    restoreSyncChildren env
      (fun child st =>
        match listFolder env (Nat.succ n) child.id with
        | none => { st with listFailLog := st.listFailLog ++ [child.name] }
        | some dchilds => restoreTrashedSync env n child.id dchilds recurse st)
      recurse childs st

theorem restoreSyncChildren_false_char (env : Env)
    (recurChild : DriveFile → SyncState → SyncState) :
    ∀ childs st,
      (restoreSyncChildren env recurChild false childs st).dispatched =
        st.dispatched ++ (childs.filter fun c => c.explicitlyTrashed).map (fun c => c.id) ∧
      (restoreSyncChildren env recurChild false childs st).failLog =
        st.failLog ++ ((childs.filter fun c => c.explicitlyTrashed).filter
          fun c => !restoreSucceeds env c.id).map (fun c => (c.id, c.name)) ∧
      (restoreSyncChildren env recurChild false childs st).listFailLog = st.listFailLog := by
  intro childs
  induction childs with
  | nil =>
    intro st
    simp [restoreSyncChildren]
  | cons child rest ih =>
    intro st
    simp only [restoreSyncChildren, Bool.false_eq_true, false_and, if_false]
    obtain ⟨i1, i2, i3⟩ := ih (restoreStepSync env child st)
    refine ⟨?_, ?_, ?_⟩
    · rw [i1]
      by_cases ht : child.explicitlyTrashed
      · by_cases hs : restoreSucceeds env child.id <;>
          simp [restoreStepSync, List.filter_cons, ht, hs, List.append_assoc]
      · simp [restoreStepSync, List.filter_cons, ht]
    · rw [i2]
      by_cases ht : child.explicitlyTrashed
      · by_cases hs : restoreSucceeds env child.id <;>
          simp [restoreStepSync, List.filter_cons, ht, hs, List.append_assoc]
      · simp [restoreStepSync, List.filter_cons, ht]
    · rw [i3]
      by_cases ht : child.explicitlyTrashed
      · by_cases hs : restoreSucceeds env child.id <;>
          simp [restoreStepSync, ht, hs]
      · simp [restoreStepSync, ht]

/-- Environment in which every untrash attempt fails terminally with a 404
and every listing fails. -/
def envFailRestore : Env :=
  { pages := fun _ _ => none
  , untrashAttempts := fun _ _ => some (Err.gapi 404 [])
  , retries := 5 }

/-- Concrete trashed file whose untrash fails. -/
def fileF1fail : DriveFile :=
  { id := "F1", name := "F1name", mimeType := "text/plain", explicitlyTrashed := true }

/-- C3 counterexample: in the synchronous variant (part_001 restoreTrashed),
a terminal untrash failure for the trashed file F1 under the owning scope P
produces a failure log record carrying the item's id and name only — the log
record has no owning-scope component at all, and the variant maintains no
itemsRestored counter — so the claim that in every variant terminal failure
logs id, name and owning scope and success increments the counter is false at
this input. -/
theorem restoreTrashedSync_log_lacks_scope :
    restoreTrashedSync envFailRestore 5 "P" [fileF1fail] true initSync =
      { dispatched := ["F1"], failLog := [("F1", "F1name")], listFailLog := [] } := by
  decide

/-- C3 (amended): for every page of discovered items, in every variant a
restore operation is dispatched for an item exactly when its
explicitlyTrashed flag is true and failed items are merely dropped after
logging; in the concurrent main.go variants, success increments countRestored
and terminal failure logs the item's id, name and owning scope; in the
synchronous part_001 variant there is no counter and terminal failure logs
only the item's id and name. -/
theorem restore_dispatch_characterization :
    (∀ env recur parent childs st,
      (restoreTrashed env recur parent childs false st).dispatched =
        st.dispatched ++ (childs.filter fun c => c.explicitlyTrashed).map (fun c => c.id) ∧
      (restoreTrashed env recur parent childs false st).restored =
        st.restored ++ ((childs.filter fun c => c.explicitlyTrashed).filter
          fun c => restoreSucceeds env c.id).map (fun c => c.id) ∧
      (restoreTrashed env recur parent childs false st).countRestored =
        st.countRestored + ((childs.filter fun c => c.explicitlyTrashed).filter
          fun c => restoreSucceeds env c.id).length ∧
      (restoreTrashed env recur parent childs false st).failedRestores =
        st.failedRestores ++ ((childs.filter fun c => c.explicitlyTrashed).filter
          fun c => !restoreSucceeds env c.id).map
            (fun c => (c.id, c.name, displayParent parent)) ∧
      (restoreTrashed env recur parent childs false st).pagesDispatched =
        st.pagesDispatched) ∧
    (∀ env recurChild childs st,
      (restoreSyncChildren env recurChild false childs st).dispatched =
        st.dispatched ++ (childs.filter fun c => c.explicitlyTrashed).map (fun c => c.id) ∧
      (restoreSyncChildren env recurChild false childs st).failLog =
        st.failLog ++ ((childs.filter fun c => c.explicitlyTrashed).filter
          fun c => !restoreSucceeds env c.id).map (fun c => (c.id, c.name))) := by
  constructor
  · intro env recur parent childs st
    obtain ⟨h1, h2, h3, h4, _, _, _, h8⟩ := restoreTrashed_false_char env recur parent childs st
    exact ⟨h1, h2, h3, h4, h8⟩
  · intro env recurChild childs st
    obtain ⟨h1, h2, _⟩ := restoreSyncChildren_false_char env recurChild childs st
    exact ⟨h1, h2⟩

/-- The reference page chain of a scope: the pages obtained by repeatedly
calling the page fetcher with the last continuation token, starting from the
given token, until a page returns an empty token (or the fuel or a fetch
gives out). -/
def chainPages (env : Env) (fid : String) : Nat → String → List Page
  | 0, _ => []
  | Nat.succ n, tok =>
    match env.pages fid tok with
    | none => []
    | some pg =>
      pg :: (if pg.nextPageToken = "" then [] else chainPages env fid n pg.nextPageToken)

theorem restoreTrashed_pages_noFolders (env : Env)
    (recur : String → RunState → RunState × Bool) (parent : String) (recurse : Bool) :
    ∀ childs st, (∀ c ∈ childs, c.mimeType ≠ folderMimeType) →
      (restoreTrashed env recur parent childs recurse st).pagesDispatched =
        st.pagesDispatched := by
  intro childs
  induction childs with
  | nil =>
    intro st _
    simp [restoreTrashed]
  | cons child rest ih =>
    intro st hnf
    simp only [restoreTrashed, childStep]
    rw [if_neg (fun hc => hnf child (by simp) hc.2)]
    rw [ih _ (fun c hc => hnf c (by simp [hc]))]
    exact (examineChild_spec env (displayParent parent) child st).2.2.2.1

theorem pageLoop_chain (env : Env) (recur : String → RunState → RunState × Bool)
    (fid : String)
    (hnf : ∀ tok pg, env.pages fid tok = some pg →
      ∀ c ∈ pg.files, c.mimeType ≠ folderMimeType) :
    ∀ n tok st,
      (pageLoop env recur fid n tok st).1.pagesDispatched =
        st.pagesDispatched ++ (chainPages env fid n tok).map (fun pg => (fid, pg.files)) := by
  intro n
  induction n with
  | zero =>
    intro tok st
    simp [pageLoop, chainPages]
  | succ m ih =>
    intro tok st
    simp only [pageLoop, chainPages]
    cases hp : env.pages fid tok with
    | none => simp
    | some pg =>
      simp only
      have hrt := restoreTrashed_pages_noFolders env recur fid true pg.files
        (dispatchPage fid pg.files st) (hnf tok pg hp)
      by_cases he : pg.nextPageToken = ""
      · rw [if_pos he, if_pos he]
        rw [hrt]
        simp [dispatchPage]
      · rw [if_neg he, if_neg he]
        rw [ih pg.nextPageToken _, hrt]
        simp [dispatchPage, List.append_assoc]

theorem listFolderLoop_accumulates (env : Env) (fid : String) :
    ∀ fuel acc tok l, listFolderLoop env fid fuel acc tok = some l → acc <+: l := by
  intro fuel
  induction fuel with
  | zero =>
    intro acc tok l h
    by_cases htok : tok = ""
    · simp [listFolderLoop, htok] at h
      subst h
      exact List.prefix_refl _
    · simp [listFolderLoop, htok] at h
  | succ n ih =>
    intro acc tok l h
    by_cases htok : tok = ""
    · simp [listFolderLoop, htok] at h
      subst h
      exact List.prefix_refl _
    · simp only [listFolderLoop, htok, if_neg, if_false] at h
      cases hp : env.pages fid tok with
      | none => rw [hp] at h; cases h
      | some pg =>
        rw [hp] at h
        exact (List.prefix_append acc pg.files).trans (ih _ _ _ h)

/-- Trashed file delivered on the first page of the two-page environment. -/
def fileA1 : DriveFile :=
  { id := "A1", name := "a1", mimeType := "text/plain", explicitlyTrashed := true }

/-- Trashed file delivered on the second page of the two-page environment. -/
def fileA2 : DriveFile :=
  { id := "A2", name := "a2", mimeType := "text/plain", explicitlyTrashed := true }

/-- Concrete environment in which scope A delivers two listing pages chained
by the continuation token T2. -/
def envTwoPages : Env :=
  { pages := fun fid tok =>
      if fid = "A" ∧ tok = "" then some { files := [fileA1], nextPageToken := "T2" }
      else if fid = "A" ∧ tok = "T2" then some { files := [fileA2], nextPageToken := "" }
      else none
  , untrashAttempts := fun _ _ => none
  , retries := 5 }

/-- C6 counterexample: the two-phase variant's listFolder, run on a scope
whose listing spans two pages, returns the one combined list holding both
pages' items — the pages are buffered into a single list, so the claim that
pages are never buffered into one combined list is false at this input. -/
theorem listFolder_buffers_pages :
    envTwoPages.pages "A" "" = some { files := [fileA1], nextPageToken := "T2" } ∧
    envTwoPages.pages "A" "T2" = some { files := [fileA2], nextPageToken := "" } ∧
    listFolder envTwoPages 5 "A" = some [fileA1, fileA2] := by
  decide

/-- C6 (amended): the processFolder traversal of the main.go variants
repeatedly calls the page fetcher with the last continuation token (starting
empty) until a page returns an empty token and dispatches each page's items
as soon as that page arrives — over pure pages its dispatched pages are
exactly the fetched chain, one dispatch per page, and in any run every
dispatched unit is exactly one fetched page, never a concatenation; the
two-phase variant's listFolder and listDrive instead accumulate every page
into one combined list (the accumulator persists across page fetches) before
anything is dispatched. -/
theorem per_page_dispatch_amended :
    (∀ env recur fid,
      (∀ tok pg, env.pages fid tok = some pg →
        ∀ c ∈ pg.files, c.mimeType ≠ folderMimeType) →
      ∀ n tok st,
        (pageLoop env recur fid n tok st).1.pagesDispatched =
          st.pagesDispatched ++ (chainPages env fid n tok).map (fun pg => (fid, pg.files))) ∧
    (∀ env fuel roots, ∀ e ∈ (mainRun env fuel roots).2.pagesDispatched,
      ∃ tok pg, env.pages e.1 tok = some pg ∧ e.2 = pg.files) ∧
    (∀ env fid fuel acc tok l, listFolderLoop env fid fuel acc tok = some l → acc <+: l) := by
  refine ⟨?_, ?_, ?_⟩
  · intro env recur fid hnf n tok st
    exact pageLoop_chain env recur fid hnf n tok st
  · intro env fuel roots
    exact (mainRun_inv env fuel roots).pagesSingle
  · intro env fid fuel acc tok l h
    exact listFolderLoop_accumulates env fid fuel acc tok l h

/-- Witness for C6 (amended): the per-page dispatch equation instantiated in
the two-page environment, the single-page shape of a concrete dispatched
page, and the cross-page accumulation of listFolderLoop at a concrete input. -/
theorem per_page_dispatch_amended_witness :
    ((pageLoop envTwoPages (fun _ st => (st, true)) "A" 5 "" initState).1.pagesDispatched =
      initState.pagesDispatched ++
        (chainPages envTwoPages "A" 5 "").map (fun pg => ("A", pg.files))) ∧
    (∃ tok pg, envTwoPages.pages "A" tok = some pg ∧ [fileA1] = pg.files) ∧
    [fileA1] <+: [fileA1, fileA2] := by
  refine ⟨?_, ?_, ?_⟩
  · refine per_page_dispatch_amended.1 envTwoPages (fun _ st => (st, true)) "A" ?_ 5 "" initState
    intro tok pg h c hc
    simp only [envTwoPages] at h
    split_ifs at h with h1 h2
    · injection h with h'
      subst h'
      simp only [List.mem_singleton] at hc
      subst hc
      decide
    · injection h with h'
      subst h'
      simp only [List.mem_singleton] at hc
      subst hc
      decide
  · exact per_page_dispatch_amended.2.1 envTwoPages 10 ["A"] ("A", [fileA1]) (by decide)
  · exact per_page_dispatch_amended.2.2 envTwoPages "A" 5 [fileA1] "T2" [fileA1, fileA2]
      (by decide)

/-- Folder child whose listing will fail. -/
def fileBad : DriveFile :=
  { id := "Bad", name := "Bad", mimeType := folderMimeType, explicitlyTrashed := false }

/-- Concrete environment for failure isolation: scope A contains a folder
whose listing fails and a trashed file; every other listing fails too. -/
def envIsolate : Env :=
  { pages := fun fid tok =>
      if fid = "A" ∧ tok = "" then some { files := [fileBad, fileF1], nextPageToken := "" }
      else none
  , untrashAttempts := fun _ _ => none
  , retries := 5 }

/-- Environment in which every listing fails. -/
def envRootFail : Env :=
  { pages := fun _ _ => none
  , untrashAttempts := fun _ _ => none
  , retries := 5 }

/-- C7 counterexample: a page-fetch failure on the whole-store sentinel scope
(the no-arguments mode of main) terminates the process through log.Fatalf —
a per-scope page-fetch failure that does change the process's overall
success exit, so the claim that a per-scope failure never changes the overall
success exit is false at this input. -/
theorem whole_store_failure_fatal :
    (mainRun envRootFail 5 []).1 = ExitOutcome.fatalExit "Unable to list drive" := by
  decide

/-- C7 (amended): a page-fetch failure on a named root scope or on a child
scope aborts only that scope's traversal, is logged with the scope's identity
and leaves the overall exit successful — with positional arguments the
process always exits successfully; a page-fetch failure on the whole-store
sentinel scope (no arguments) is fatal; and a missing startup collaborator
(the client secret file) is fatal before any traversal begins. -/
theorem failure_isolation_amended :
    (∀ env fuel r rest, (fullMain true env fuel (r :: rest)).1 = ExitOutcome.success) ∧
    (∀ env fuel, env.pages "" "" = none →
      (fullMain true env fuel []).1 = ExitOutcome.fatalExit "Unable to list drive") ∧
    (∀ env fuel roots,
      fullMain false env fuel roots =
        (ExitOutcome.fatalExit "Unable to read client secret file", initState)) ∧
    ((mainRun envIsolate 10 ["A"]).1 = ExitOutcome.success ∧
      (mainRun envIsolate 10 ["A"]).2.countRestored = 1 ∧
      (mainRun envIsolate 10 ["A"]).2.restored = ["F1"] ∧
      (mainRun envIsolate 10 ["A"]).2.listFailures = ["Bad"]) ∧
    ((mainRun envRootFail 5 ["R"]).1 = ExitOutcome.success ∧
      (mainRun envRootFail 5 ["R"]).2.listFailures = ["R"]) := by
  refine ⟨?_, ?_, ?_, by decide, by decide⟩
  · intro env fuel r rest
    simp [fullMain, mainRun]
  · intro env fuel h
    have hpf : (processFolder env fuel "" initState).2 = false := by
      cases fuel with
      | zero => simp [processFolder]
      | succ n =>
        simp only [processFolder]
        rw [if_neg (by simp [initState])]
        simp [pageLoop, h]
    simp only [fullMain, if_pos, mainRun]
    rcases hp : processFolder env fuel "" initState with ⟨st, b⟩
    rw [hp] at hpf
    simp only at hpf
    subst hpf
    simp
  · intro env fuel roots
    simp [fullMain]

/-- Witness for C7 (amended): the whole-store fatality applied at the
concrete all-failing environment. -/
theorem failure_isolation_amended_witness :
    (fullMain true envRootFail 5 []).1 = ExitOutcome.fatalExit "Unable to list drive" :=
  failure_isolation_amended.2.1 envRootFail 5 rfl
